import Mathlib

/-!
Shallow embedding of the scheduling-and-dispatch engine of the
chaos-to-value-saas repository (services/scheduler.py, models/database.py,
services/ai_content_generator.py, services/social_media_platforms.py,
src/platforms/base.py), together with theorems settling the spec claims.

Time is modelled as `Int` seconds; `timedelta(hours=24)` is `86400`.
Python dictionaries keyed by platform name are modelled as total functions
`String → List Int` (with `[]` as the missing-key default, matching
`dict.get(platform, [])`).
-/

/-- Seconds in 24 hours: `86400`, the `timedelta(hours=24)` pruning window of
`PostScheduler._should_post`. -/
def dayWindow : Int := 86400

/-- The list comprehension in `PostScheduler._should_post` (scheduler.py
lines 275-278): keep exactly the timestamps `t` with `now - t < 24h`. -/
def prune (now : Int) (hist : List Int) : List Int :=
  hist.filter (fun t => decide (now - t < dayWindow))

/-- Model of `PostScheduler._should_post` (scheduler.py lines 269-284): prune the
platform's history, store the pruned list back into the map, and return
whether the remaining count is strictly below `max_posts_per_day`. -/
def shouldPostHist (maxPosts : Nat) (now : Int) (hist : String → List Int)
    (platform : String) : Bool × (String → List Int) :=
  let pruned := prune now (hist platform)
  (decide (pruned.length < maxPosts), Function.update hist platform pruned)

/-- Model of `PostScheduler._update_posting_history` (scheduler.py lines 286-291):
append the current time to the platform's history (creating the entry if
absent, which the `[]` default of the total-function model already covers). -/
def updatePostingHistory (now : Int) (hist : String → List Int)
    (platform : String) : String → List Int :=
  Function.update hist platform (hist platform ++ [now])

/-- Membership of a timestamp in the trailing 24-hour window ending at `E`. -/
def winB (E t : Int) : Bool :=
  decide (E - t < dayWindow) && decide (t ≤ E)

/-- A wall-clock instant as used by `_get_next_optimal_time`: a calendar day
index plus hour/minute/second fields (Python `datetime`; the microsecond
field, always zeroed by the code, is omitted). -/
structure DateTime where
  day : Int
  hour : Nat
  minute : Nat
  second : Nat
deriving DecidableEq

/-- Calendar order on `DateTime` (lexicographic on day, hour, minute,
second), the order Python `datetime` comparison implements for in-range
field values. -/
def beforeB (a b : DateTime) : Bool :=
  decide (a.day < b.day) ||
    (a.day == b.day &&
      (decide (a.hour < b.hour) ||
        (a.hour == b.hour &&
          (decide (a.minute < b.minute) ||
            (a.minute == b.minute && decide (a.second < b.second))))))

/-- Model of `PostScheduler.optimal_times` (scheduler.py lines 36-42) combined with
the `.get(platform, [9, 15, 21])` default used at lines 76 and 296. -/
def optimal_times (platform : String) : List Nat :=
  if platform = "twitter" then [8, 12, 17, 20]
  else if platform = "facebook" then [9, 13, 15, 19]
  else if platform = "instagram" then [11, 14, 17, 19]
  else if platform = "linkedin" then [8, 12, 14, 17]
  else if platform = "tiktok" then [16, 18, 20, 22]
  else [9, 15, 21]

/-- Model of `PostScheduler._get_next_optimal_time` (scheduler.py lines 293-315).
The random `minute = random.randint(0, 59)` is passed in as a parameter.
The scan `for hour in optimal_hours: if hour > current_hour` is `find?`;
when no listed hour is greater the code takes `optimal_hours[0]` on
`now + timedelta(days=1)` (the lists are never empty, so the `headD 0`
default is never the result of an empty list). -/
def getNextOptimalTime (platform : String) (now : DateTime) (minute : Nat) :
    DateTime :=
  let hours := optimal_times platform
  match hours.find? (fun x => decide (now.hour < x)) with
  | some h => { now with hour := h, minute := minute, second := 0 }
  | none => { day := now.day + 1, hour := hours.headD 0,
              minute := minute, second := 0 }

/-- The `posts` row of models/database.py (lines 14-30), restricted to the
columns the core reads or writes.  `none` models SQL NULL. -/
structure Post where
  id : Nat
  content : String
  platform : String
  theme : Option String
  hashtags : List String
  scheduled_time : Option Int
  posted_time : Option Int
  status : String
  platform_post_id : Option String
  error_message : Option String
deriving DecidableEq

/-- Python truthiness of an optional string argument (`if platform_post_id:`
in `DatabaseManager.update_post_status`): `None` and `""` are falsy. -/
def pyTruthy : Option String → Bool
  | none => false
  | some s => !(s == "")

/-- The field assignments `DatabaseManager.update_post_status` performs on
the post it found (database.py lines 150-157): status is always assigned;
`platform_post_id` and `error_message` only when the argument is truthy;
`posted_time` is set to now exactly when the new status is `"posted"`. -/
def applyStatusUpdate (p : Post) (status : String)
    (platform_post_id error_message : Option String) (now : Int) : Post :=
  { p with
    status := status
    platform_post_id :=
      if pyTruthy platform_post_id then platform_post_id else p.platform_post_id
    error_message :=
      if pyTruthy error_message then error_message else p.error_message
    posted_time := if status = "posted" then some now else p.posted_time }

/-- Model of `DatabaseManager.update_post_status` (database.py lines 145-160): find
the first row with the given id and apply the update to it; every other row
is unchanged (a missing id leaves the table unchanged). -/
def update_post_status : List Post → Nat → String → Option String →
    Option String → Int → List Post
  | [], _, _, _, _, _ => []
  | p :: rest, post_id, status, pid, err, now =>
    if p.id = post_id then applyStatusUpdate p status pid err now :: rest
    else p :: update_post_status rest post_id status pid err now

/-- Model of `DatabaseManager.create_post` (database.py lines 128-143): a fresh row
with default status `"draft"` and NULL outcome columns, appended to the
table; the autoincrement id is supplied by the caller's counter. -/
def create_post (nextId : Nat) (content platform : String)
    (theme : Option String) (hashtags : List String)
    (scheduled_time : Option Int) : Post :=
  { id := nextId, content := content, platform := platform, theme := theme,
    hashtags := hashtags, scheduled_time := scheduled_time,
    posted_time := none, status := "draft", platform_post_id := none,
    error_message := none }

/-- SQL `Post.scheduled_time <= func.now()`: a NULL `scheduled_time` never
satisfies the comparison. -/
def dueB : Option Int → Int → Bool
  | none, _ => false
  | some t, now => decide (t ≤ now)

/-- The row filter of `DatabaseManager.get_scheduled_posts` (database.py
lines 162-167): status `"scheduled"` and due time at most now. -/
def scheduledDue (now : Int) (p : Post) : Bool :=
  p.status == "scheduled" && dueB p.scheduled_time now

/-- Model of `DatabaseManager.get_scheduled_posts` (database.py lines 162-167): the
query filters on status and due time and applies `limit`; it has no
`order_by`, so rows come back in table (insertion) order, which the
list-backed store models directly. -/
def get_scheduled_posts (db : List Post) (now : Int) (lim : Nat) : List Post :=
  (db.filter (scheduledDue now)).take lim

/-- The dictionary a platform's `post_content` returns to
`PostScheduler._execute_post` (social_media_platforms.py): a `success` flag,
an optional `platform_post_id`, an optional `error` string (`none` models a
missing key, `result.get` then yields its default). -/
structure PubResult where
  success : Bool
  platform_post_id : Option String
  error : Option String
deriving DecidableEq

/-- The outcome of one `social_manager.post_to_platform` call as seen by
`_execute_post`: either a returned result dictionary or a raised exception
with message `msg` (caught at scheduler.py lines 215-217). -/
inductive PubOutcome where
  | ok (r : PubResult)
  | exn (msg : String)
deriving DecidableEq

/-- The content dictionary `AIContentGenerator.generate_content` hands to
`_create_and_execute_post`: the fields that become `create_post` arguments. -/
structure GenData where
  content : String
  platform : String
  theme : String
  hashtags : List String
deriving DecidableEq

/-- The mutable state a dispatch-job execution touches: the in-memory
posting-history map, the posts table, and the autoincrement id counter. -/
structure DispatchState where
  posting_history : String → List Int
  db : List Post
  nextId : Nat

/-- The fresh scheduler state: empty history, empty table. -/
def initState : DispatchState :=
  { posting_history := fun _ => [], db := [], nextId := 1 }

/-- Model of `PostScheduler._execute_post` (scheduler.py lines 185-217): on a
successful result, set the record to `posted` with the platform post id and
append to the posting history of the record's own platform; on a failure
result, set it to `failed` with `result.get("error", "Unknown error")`;
on a raised exception, set it to `failed` with the exception text. -/
def executePost (st : DispatchState) (post : Post) (outcome : PubOutcome)
    (now : Int) : DispatchState :=
  match outcome with
  | .ok r =>
    if r.success then
      { st with
        db := update_post_status st.db post.id "posted" r.platform_post_id
          none now
        posting_history := updatePostingHistory now st.posting_history
          post.platform }
    else
      { st with
        db := update_post_status st.db post.id "failed" none
          (some (r.error.getD "Unknown error")) now }
  | .exn msg =>
    { st with
      db := update_post_status st.db post.id "failed" none (some msg) now }

/-- Model of `PostScheduler._schedule_post` (scheduler.py lines 113-135), one
dispatch-job execution for `(platform, theme)` at time `now`: consult
`_should_post(platform)` (which stores the pruned history back and, when
false, skips); fetch `get_scheduled_posts(limit=1)` and execute the fetched
record if any; otherwise create a record from the generated content (always
a truthy dictionary — generation falls back rather than failing, so the
`if content_data:` branch is always taken) and execute it.  The generator
output and the publish outcome are parameters. -/
def dispatchJob (maxPosts : Nat) (st : DispatchState)
    (platform _theme : String) (now : Int) (gen : GenData)
    (outcome : PubOutcome) : DispatchState :=
  let gate := shouldPostHist maxPosts now st.posting_history platform
  let st1 := { st with posting_history := gate.2 }
  if gate.1 then
    match (get_scheduled_posts st1.db now 1).head? with
    | some post => executePost st1 post outcome now
    | none =>
      let post := create_post st1.nextId gen.content gen.platform
        (some gen.theme) gen.hashtags (some now)
      executePost { st1 with db := st1.db ++ [post], nextId := st1.nextId + 1 }
        post outcome now
  else st1

/-- The core operations of claim C3's reachability: record creation
(`create_post`), the batch planner's create-then-mark-`scheduled` step
(scheduler.py lines 151-160), an unrestricted `update_post_status` call,
and a dispatch-job execution. -/
inductive CoreOp where
  | create (content platform : String) (theme : Option String)
      (hashtags : List String) (scheduled_time : Option Int)
  | batchSchedule (content platform theme : String) (hashtags : List String)
      (scheduled_time : Int)
  | update (post_id : Nat) (status : String)
      (platform_post_id error_message : Option String) (now : Int)
  | dispatch (platform theme : String) (now : Int) (gen : GenData)
      (outcome : PubOutcome)

/-- Apply one core operation to the state. -/
def applyOp (maxPosts : Nat) (st : DispatchState) : CoreOp → DispatchState
  | .create c p th hs t =>
    { st with
        db := st.db ++ [create_post st.nextId c p th hs t]
        nextId := st.nextId + 1 }
  | .batchSchedule c p th hs t =>
    let created := st.db ++ [create_post st.nextId c p (some th) hs (some t)]
    { st with
        db := update_post_status created st.nextId "scheduled" none none t
        nextId := st.nextId + 1 }
  | .update post_id status pid err now =>
    { st with db := update_post_status st.db post_id status pid err now }
  | .dispatch p th now gen outcome => dispatchJob maxPosts st p th now gen outcome

/-- Run a list of core operations from a state. -/
def runOps (maxPosts : Nat) (st : DispatchState) (ops : List CoreOp) :
    DispatchState :=
  ops.foldl (applyOp maxPosts) st

/-- The status invariant of claim C3 on a single record, as a decidable
check: `posted` exactly when both `posted_time` and `platform_post_id` are
set, and `failed` exactly when `error_message` is set. -/
def statusInvB (p : Post) : Bool :=
  ((p.status == "posted") == (p.posted_time.isSome && p.platform_post_id.isSome))
    && ((p.status == "failed") == p.error_message.isSome)

/-- The platform keys of `SocialMediaManager.platforms`
(social_media_platforms.py lines 519-526). -/
def managerPlatforms : List String :=
  ["twitter", "facebook", "instagram", "linkedin", "tiktok"]

/-- Model of `SocialMediaManager.authenticate_all` (social_media_platforms.py lines
528-545): each platform's `authenticate()` either returns a boolean or
raises, and a raised exception is recorded as `False`. -/
def authenticate_all (outcomes : List (String × Except String Bool)) :
    List (String × Bool) :=
  outcomes.map (fun o => (o.1, match o.2 with | .ok b => b | .error _ => false))

/-- The scheduler state `PostScheduler.initialize` touches: the active
platform list (line 56) and the running flag (untouched by `initialize`;
only `start`/`stop` assign it). -/
structure SchedulerCore where
  platforms : List String
  is_running : Bool
deriving DecidableEq

/-- Model of `PostScheduler.initialize` (scheduler.py lines 44-65) given the
authentication results: collect the successful platforms; if none, return
`False` leaving the state as it was; otherwise narrow `self.platforms` to
the authenticated subset, (re)build the schedules, and return `True`. -/
def schedulerInit (st : SchedulerCore) (auth_results : List (String × Bool)) :
    Bool × SchedulerCore :=
  let authenticated := (auth_results.filter (fun r => r.2)).map (fun r => r.1)
  if authenticated.isEmpty then (false, st)
  else (true, { st with platforms := authenticated })

/-- Model of `SocialMediaManager.post_to_platform` (social_media_platforms.py lines
547-558): an unsupported platform name yields an error dictionary without
touching any platform; otherwise `platform.post_content` is called exactly
once.  `attempts i` is what the platform's `post_content` would produce on
its i-th invocation; the second component counts the `post_content` calls
actually made. -/
def post_to_platform (supported : List String) (platform : String)
    (attempts : Nat → PubOutcome) : PubOutcome × Nat :=
  if platform ∈ supported then (attempts 0, 1)
  else (.ok { success := false, platform_post_id := none,
              error := some ("Platform " ++ platform ++ " not supported") }, 0)

/-- Loop body of `BasePlatform.post_with_retry` (src/src/platforms/base.py
lines 73-92): `i` is the current attempt index, `rem` the attempts left of
`max_retries`.  A successful `post_content` returns immediately; on an
exception the last attempt re-raises, earlier ones sleep `2 ** attempt`
seconds and continue.  Result: (outcome, attempts made, backoff sleeps). -/
def postWithRetryAux (attempts : Nat → Except String String) :
    Nat → Nat → Except String String × Nat × List Nat
  | i, 0 => (.error "no attempts", i, [])
  | i, rem + 1 =>
    match attempts i with
    | .ok r => (.ok r, i + 1, [])
    | .error e =>
      if rem = 0 then (.error e, i + 1, [])
      else
        let next := postWithRetryAux attempts (i + 1) rem
        (next.1, next.2.1, 2 ^ i :: next.2.2)

/-- Model of `BasePlatform.post_with_retry` with its `max_retries = 3` default. -/
def post_with_retry (attempts : Nat → Except String String)
    (max_retries : Nat) : Except String String × Nat × List Nat :=
  postWithRetryAux attempts 0 max_retries

/-- The `fallback_content` table of
`AIContentGenerator._get_fallback_content` (ai_content_generator.py lines
259-280), keyed by theme. -/
def fallback_content (theme : String) : Option (List String) :=
  if theme = "technology" then some
    ["The future is being built today. What technology trend excites you most?",
     "Innovation happens when creativity meets technology. What's your next big idea?",
     "Every expert was once a beginner. Keep learning, keep growing in tech!"]
  else if theme = "business" then some
    ["Success in business is about solving problems people didn't know they had.",
     "Great leaders don't create followers, they create more leaders.",
     "The best investment you can make is in yourself and your skills."]
  else if theme = "motivation" then some
    ["Your only limit is your mind. What will you achieve today?",
     "Success is not final, failure is not fatal. It's the courage to continue that counts.",
     "Dream big, start small, but most importantly - start today!"]
  else if theme = "lifestyle" then some
    ["Small daily improvements lead to stunning long-term results.",
     "Life is about balance. What brings you joy today?",
     "The best time to take care of yourself is now. What's one thing you'll do for yourself today?"]
  else none

/-- The pool `random.choice` draws from in `_get_fallback_content` (line
282): `fallback_content.get(theme, fallback_content["motivation"])`. -/
def fallbackPool (theme : String) : List String :=
  (fallback_content theme).getD ((fallback_content "motivation").getD [])

/-- Model of `random.choice` over a list, with the random draw supplied as an index
(uniform over the list positions; an empty list, on which Python would
raise, never occurs for the fallback pools). -/
def pick (l : List String) (i : Nat) : String :=
  l.getD (i % l.length) ""

/-- The `default_hashtags` table of
`AIContentGenerator._get_default_hashtags` (ai_content_generator.py lines
249-255). -/
def default_hashtags (theme : String) : List String :=
  if theme = "technology" then
    ["tech", "innovation", "AI", "startup", "digital", "future", "techtrends"]
  else if theme = "business" then
    ["business", "entrepreneur", "leadership", "success", "growth", "strategy", "mindset"]
  else if theme = "motivation" then
    ["motivation", "inspiration", "success", "goals", "mindset", "growth", "positivity"]
  else if theme = "lifestyle" then
    ["lifestyle", "wellness", "health", "productivity", "life", "tips", "balance"]
  else ["content", "social", "share"]

/-- Model of `AIContentGenerator._get_fallback_content` (ai_content_generator.py
lines 257-292): pick from the theme's pool (defaulting to the motivation
pool) and attach the first five default hashtags. -/
def get_fallback_content (platform theme : String) (choice : Nat) : GenData :=
  { content := pick (fallbackPool theme) choice
    platform := platform
    theme := theme
    hashtags := (default_hashtags theme).take 5 }

/-- Model of `AIContentGenerator.generate_content` (ai_content_generator.py lines
75-114) with the AI calls abstracted: `textGen` is the outcome of
`_generate_text_content` (which raises when both AI providers fail, line
171), `hashGen` the outcome of the hashtag model call (whose failure falls
back to default hashtags inside `_generate_hashtags`), `choice` the random
draw used by the fallback path.  Any exception in the body is caught and
answered with `_get_fallback_content` (lines 112-114), so the function
always returns a dictionary and never raises. -/
def generate_content (platform theme : String)
    (textGen : Except String String)
    (hashGen : Except String (List String)) (choice : Nat) : GenData :=
  match textGen with
  | .error _ => get_fallback_content platform theme choice
  | .ok content =>
    { content := content
      platform := platform
      theme := theme
      hashtags :=
        match hashGen with
        | .ok hs => hs
        | .error _ => default_hashtags theme }

/-- The three consecutive `record_post("twitter")` calls of claim C1's
scenario, at seconds 0, 1 and 2 of an initially empty history. -/
def historyAfterThree : String → List Int :=
  updatePostingHistory 2
    (updatePostingHistory 1
      (updatePostingHistory 0 (fun _ => []) "twitter") "twitter") "twitter"

/-- A due scheduled record created first, with the later due time. -/
def postDueLater : Post :=
  { id := 1, content := "first row", platform := "twitter", theme := none,
    hashtags := [], scheduled_time := some 100, posted_time := none,
    status := "scheduled", platform_post_id := none, error_message := none }

/-- A due scheduled record created second, with the earlier due time. -/
def postDueSooner : Post :=
  { id := 2, content := "second row", platform := "twitter", theme := none,
    hashtags := [], scheduled_time := some 50, posted_time := none,
    status := "scheduled", platform_post_id := none, error_message := none }

/-- A due scheduled record targeting facebook, sitting in the table when a
twitter dispatch fires. -/
def postForOtherPlatform : Post :=
  { id := 1, content := "cross-platform row", platform := "facebook",
    theme := some "business", hashtags := [], scheduled_time := some 0,
    posted_time := none, status := "scheduled", platform_post_id := none,
    error_message := none }

/-- State for the C10 scenario: twitter has one stale history entry (which
only a twitter rate-limit check would prune), facebook none, and the table
holds the due facebook record. -/
def crossState : DispatchState :=
  { posting_history := fun q => if q = "twitter" then [-1000000] else [],
    db := [postForOtherPlatform], nextId := 2 }

/-- Generator output for the twitter trigger (unused: a record is fetched). -/
def crossGen : GenData :=
  { content := "generated text", platform := "twitter",
    theme := "technology", hashtags := [] }

/-- A successful publish result carrying a platform post id. -/
def crossOutcome : PubOutcome :=
  .ok { success := true, platform_post_id := some "fb_123", error := none }

/-- A due facebook scheduled record for the C2 failing input, one per id. -/
def fbScheduled (i : Nat) : Post :=
  { id := i, content := "queued facebook row", platform := "facebook",
    theme := some "business", hashtags := [], scheduled_time := some 0,
    posted_time := none, status := "scheduled", platform_post_id := none,
    error_message := none }

/-- Start state of the C2 failing input: empty posting history and three due
facebook scheduled records in the table. -/
def c2StartState : DispatchState :=
  { posting_history := fun _ => [],
    db := [fbScheduled 1, fbScheduled 2, fbScheduled 3], nextId := 4 }

/-- Generator output for the twitter triggers of the C2 failing input
(unused: a scheduled record is fetched on every invocation). -/
def c2Gen : GenData :=
  { content := "generated text", platform := "twitter",
    theme := "technology", hashtags := [] }

/-- A successful publish outcome for every attempt of the C2 failing input. -/
def c2Outcome : PubOutcome :=
  .ok { success := true, platform_post_id := some "fb_ok", error := none }

/-- The state after three twitter-gated dispatch-job invocations at times
10, 20 and 30 with `max_posts_per_day = 2`, run on the faithful dispatch
model. -/
def c2EndState : DispatchState :=
  dispatchJob 2
    (dispatchJob 2
      (dispatchJob 2 c2StartState "twitter" "technology" 10 c2Gen c2Outcome)
      "twitter" "technology" 20 c2Gen c2Outcome)
    "twitter" "technology" 30 c2Gen c2Outcome

/-- A publisher whose first attempt fails and whose second would succeed. -/
def flakyAttempts : Nat → PubOutcome := fun i =>
  if i = 0 then
    .ok { success := false, platform_post_id := none,
          error := some "network error" }
  else .ok { success := true, platform_post_id := some "id123", error := none }

/-- The same publisher behavior for the `post_with_retry` model. -/
def flakyCalls : Nat → Except String String := fun i =>
  if i = 0 then .error "network error" else .ok "id123"

/-- State for the C9 counterexample: twitter already has three posts inside
the trailing window and the table is empty. -/
def rateLimitedState : DispatchState :=
  { posting_history := fun q => if q = "twitter" then [0, 10, 20] else [],
    db := [], nextId := 1 }

/-- Generator output for the C9 counterexample invocation. -/
def c9Gen : GenData :=
  { content := "some text", platform := "twitter", theme := "technology",
    hashtags := [] }

/-- A publish outcome that would succeed, were it ever attempted. -/
def c9Outcome : PubOutcome :=
  .ok { success := true, platform_post_id := some "tw_1", error := none }

def execStatus : PubOutcome → String
  | .ok r => if r.success then "posted" else "failed"
  | .exn _ => "failed"

def execPid : PubOutcome → Option String
  | .ok r => if r.success then r.platform_post_id else none
  | .exn _ => none

def execErr : PubOutcome → Option String
  | .ok r => if r.success then none else some (r.error.getD "Unknown error")
  | .exn m => some m

def outcomeWF : PubOutcome → Prop
  | .ok r => (r.success = true → pyTruthy r.platform_post_id = true)
      ∧ (r.success = false → r.error.getD "Unknown error" ≠ "")
  | .exn msg => msg ≠ ""

def opWF : CoreOp → Prop
  | .create _ _ _ _ _ => True
  | .batchSchedule _ _ _ _ _ => True
  | .update _ _ _ _ _ => False
  | .dispatch _ _ _ _ outcome => outcomeWF outcome

def stateInv (st : DispatchState) : Prop :=
  (st.db.map (fun p => p.id)).Nodup
  ∧ (∀ q ∈ st.db, q.id < st.nextId)
  ∧ (∀ q ∈ st.db, statusInvB q = true)

/-- A creation followed by a plain `update_post_status` call that sets
status `posted` without a platform post id. -/
def badOps : List CoreOp :=
  [CoreOp.create "hello" "twitter" none [] none,
   CoreOp.update 1 "posted" none none 100]

/-- A single well-formed dispatch execution from the empty store. -/
def goodOps : List CoreOp :=
  [CoreOp.dispatch "twitter" "technology" 100
    { content := "hello", platform := "twitter", theme := "technology",
      hashtags := [] }
    (PubOutcome.ok
      { success := true, platform_post_id := some "tw_1", error := none })]

/-- C1: `_should_post(platform)` stores back exactly the timestamps within
24 hours of `now` (dropping the rest), and returns true iff the remaining
count is strictly below `max_posts_per_day`; with `max_posts_per_day = 2`,
after three `record_post("twitter")` calls it returns false within the same
24-hour window (here at one hour) and true 25 hours later. -/
theorem shouldPost_prunes_and_caps (maxPosts : Nat) (now : Int)
    (hist : String → List Int) (p : String) :
    ((shouldPostHist maxPosts now hist p).2 p = prune now (hist p))
    ∧ (∀ t : Int, t ∈ (shouldPostHist maxPosts now hist p).2 p ↔
        t ∈ hist p ∧ now - t < dayWindow)
    ∧ ((shouldPostHist maxPosts now hist p).1 =
        decide ((prune now (hist p)).length < maxPosts))
    ∧ ((shouldPostHist 2 3600 historyAfterThree "twitter").1 = false)
    ∧ ((shouldPostHist 2 90000 historyAfterThree "twitter").1 = true) := by
  refine ⟨?_, ?_, rfl, by decide, by decide⟩
  · simp [shouldPostHist]
  · intro t
    simp [shouldPostHist, prune, Function.update_same]

/-- Every optimal-hour list of the table (and the default) is ascending. -/
theorem optimal_times_sorted (p : String) :
    (optimal_times p).Pairwise (· ≤ ·) := by
  unfold optimal_times
  repeat' split
  all_goals decide

/-- On an ascending list, the scan for the first element strictly above `h`
returns an element of the list strictly above `h` that is least among all
such elements. -/
theorem find?_min_of_sorted (l : List Nat) (hl : l.Pairwise (· ≤ ·))
    (h x : Nat) (hf : l.find? (fun y => decide (h < y)) = some x) :
    h < x ∧ x ∈ l ∧ ∀ y ∈ l, h < y → x ≤ y := by
  induction l with
  | nil => simp at hf
  | cons a l ih =>
    rw [List.find?_cons] at hf
    by_cases ha : h < a
    · simp [ha] at hf
      subst hf
      refine ⟨ha, List.mem_cons_self a l, ?_⟩
      intro y hy _
      rcases List.mem_cons.1 hy with rfl | hy'
      · exact le_refl y
      · exact (List.pairwise_cons.1 hl).1 y hy'
    · simp [ha] at hf
      obtain ⟨h1, h2, h3⟩ := ih (List.pairwise_cons.1 hl).2 hf
      refine ⟨h1, List.mem_cons_of_mem a h2, ?_⟩
      intro y hy hly
      rcases List.mem_cons.1 hy with rfl | hy'
      · exact absurd hly ha
      · exact h3 y hy' hly

/-- C5: for every platform (all of whose optimal-hour lists are non-empty
and ascending) and every time, `_get_next_optimal_time` is strictly after
`now`; when some listed hour exceeds `now.hour` the result is the same
calendar day at the least such hour (with the random minute and second 0);
otherwise it is the next calendar day at the first listed hour.  The two
scenario instances: twitter at 18:30 yields hour 20 the same day, twitter
at 21:00 yields hour 8 the next day. -/
theorem nextOptimalTime_strictly_future (platform : String) (now : DateTime)
    (m : Nat) :
    (beforeB now (getNextOptimalTime platform now m) = true)
    ∧ (if (optimal_times platform).any (fun x => decide (now.hour < x)) then
        (getNextOptimalTime platform now m).day = now.day
        ∧ (getNextOptimalTime platform now m).hour ∈ optimal_times platform
        ∧ now.hour < (getNextOptimalTime platform now m).hour
        ∧ (∀ y ∈ optimal_times platform,
            now.hour < y → (getNextOptimalTime platform now m).hour ≤ y)
        ∧ (getNextOptimalTime platform now m).minute = m
        ∧ (getNextOptimalTime platform now m).second = 0
      else
        (getNextOptimalTime platform now m).day = now.day + 1
        ∧ (getNextOptimalTime platform now m).hour
            = (optimal_times platform).headD 0
        ∧ (getNextOptimalTime platform now m).minute = m
        ∧ (getNextOptimalTime platform now m).second = 0)
    ∧ (getNextOptimalTime "twitter" ⟨0, 18, 30, 0⟩ m
        = ⟨0, 20, m, 0⟩)
    ∧ (getNextOptimalTime "twitter" ⟨0, 21, 0, 0⟩ m
        = ⟨1, 8, m, 0⟩) := by
  refine ⟨?_, ?_, by simp [getNextOptimalTime, optimal_times],
    by simp [getNextOptimalTime, optimal_times]⟩
  · cases hF : (optimal_times platform).find? (fun x => decide (now.hour < x)) with
    | none =>
      simp [getNextOptimalTime, hF, beforeB, lt_add_one]
    | some h =>
      obtain ⟨h1, _, _⟩ :=
        find?_min_of_sorted _ (optimal_times_sorted platform) _ _ hF
      simp [getNextOptimalTime, hF, beforeB, h1]
  · cases hF : (optimal_times platform).find? (fun x => decide (now.hour < x)) with
    | none =>
      have hany : (optimal_times platform).any (fun x => decide (now.hour < x)) = false := by
        simp only [List.any_eq_false]
        intro x hx
        have := List.find?_eq_none.1 hF x hx
        simpa using this
      simp [hany, getNextOptimalTime, hF]
    | some h =>
      obtain ⟨h1, h2, h3⟩ :=
        find?_min_of_sorted _ (optimal_times_sorted platform) _ _ hF
      have hany : (optimal_times platform).any (fun x => decide (now.hour < x)) = true := by
        simp [List.any_eq_true]
        exact ⟨h, h2, h1⟩
      simp [hany, getNextOptimalTime, hF]
      exact ⟨h2, h1, h3⟩

/-- Witness for C5 at platform twitter, 18:30, minute draw 30. -/
theorem nextOptimalTime_strictly_future_witness :
    beforeB ⟨0, 18, 30, 0⟩ (getNextOptimalTime "twitter" ⟨0, 18, 30, 0⟩ 30)
      = true :=
  (nextOptimalTime_strictly_future "twitter" ⟨0, 18, 30, 0⟩ 30).1

/-- C6: `initialize()` returns false exactly when no platform authenticated
(leaving the state untouched, so a stopped scheduler stays stopped);
otherwise it returns true and the active platform list becomes exactly the
authenticated subset.  The scenario instance: all five manager platforms
returning false makes it return false with the state unchanged. -/
theorem schedulerInit_false_iff_no_auth (st : SchedulerCore)
    (ar : List (String × Bool)) :
    ((schedulerInit st ar).1 = false ↔ ar.filter (fun r => r.2) = [])
    ∧ ((schedulerInit st ar).2.platforms =
        if (ar.filter (fun r => r.2)).isEmpty then st.platforms
        else (ar.filter (fun r => r.2)).map (fun r => r.1))
    ∧ ((schedulerInit st ar).2.is_running = st.is_running)
    ∧ ((schedulerInit ⟨managerPlatforms, false⟩
          (authenticate_all (managerPlatforms.map
            (fun p => (p, Except.ok false))))).1 = false)
    ∧ ((schedulerInit ⟨managerPlatforms, false⟩
          (authenticate_all (managerPlatforms.map
            (fun p => (p, Except.ok false))))).2
        = ⟨managerPlatforms, false⟩) := by
  refine ⟨?_, ?_, ?_, by decide, by decide⟩
  · unfold schedulerInit
    by_cases h : ((ar.filter (fun r => r.2)).map (fun r => r.1)).isEmpty
    · simp only [h, if_pos rfl]
      simp only [List.isEmpty_iff, List.map_eq_nil_iff] at h
      simp [h]
    · simp only [h]
      simp only [List.isEmpty_iff, List.map_eq_nil_iff] at h
      simp [h]
  · unfold schedulerInit
    by_cases h : ((ar.filter (fun r => r.2)).map (fun r => r.1)).isEmpty
    · have h' : (ar.filter (fun r => r.2)).isEmpty = true := by
        simpa [List.isEmpty_iff, List.map_eq_nil_iff] using h
      simp [h, h']
    · have h' : (ar.filter (fun r => r.2)).isEmpty = false := by
        simp only [List.isEmpty_iff, List.map_eq_nil_iff] at h
        simpa [List.isEmpty_iff] using h
      simp [h, h']
  · unfold schedulerInit
    by_cases h : ((ar.filter (fun r => r.2)).map (fun r => r.1)).isEmpty <;>
      simp [h]

/-- Taking one element of a filtered list yields exactly the first match. -/
theorem filter_take_one_eq_find?_toList {α : Type} (p : α → Bool) :
    ∀ l : List α, (l.filter p).take 1 = (l.find? p).toList := by
  intro l
  induction l with
  | nil => rfl
  | cons a l ih =>
    by_cases h : p a
    · simp [List.filter_cons, List.find?_cons, h]
    · simp only [List.filter_cons, List.find?_cons]
      simp [h, ih]

/-- Counterexample to C7 as stated: with two due scheduled records, the
query (which has no ordering clause) fetches the first row of the table,
even though the other due record has a strictly smaller `scheduled_time`. -/
theorem getScheduled_not_oldest_first :
    get_scheduled_posts [postDueLater, postDueSooner] 200 1 = [postDueLater]
    ∧ scheduledDue 200 postDueSooner = true
    ∧ postDueSooner.scheduled_time = some 50
    ∧ postDueLater.scheduled_time = some 100
    ∧ (50 : Int) < 100 := by
  refine ⟨by decide, by decide, rfl, rfl, by decide⟩

/-- C7 amended: one dispatch-job invocation fetches at most one record with
status `scheduled` and due time at most now, namely the first such record
in table (insertion) order — not necessarily the one with minimal
`scheduled_time`. -/
theorem getScheduled_at_most_one_first_in_table_order (db : List Post)
    (now : Int) :
    (get_scheduled_posts db now 1).length ≤ 1
    ∧ get_scheduled_posts db now 1 = (db.find? (scheduledDue now)).toList := by
  constructor
  · unfold get_scheduled_posts
    exact le_trans (Nat.le_of_eq rfl) (List.length_take_le 1 (db.filter (scheduledDue now)))
  · exact filter_take_one_eq_find?_toList (scheduledDue now) db

/-- C10: the dispatch job invoked for twitter prunes and checks twitter's
rate-limit history (the stale twitter entry is gone afterwards), yet
fetches the due scheduled record without any platform filter, publishes it
to facebook, and appends the posting-history entry for facebook. -/
theorem dispatch_publishes_fetched_platform :
    ((dispatchJob 6 crossState "twitter" "technology" 100 crossGen
        crossOutcome).db
      = [{ postForOtherPlatform with
            status := "posted"
            posted_time := some 100
            platform_post_id := some "fb_123" }])
    ∧ ((dispatchJob 6 crossState "twitter" "technology" 100 crossGen
        crossOutcome).posting_history "facebook" = [100])
    ∧ ((dispatchJob 6 crossState "twitter" "technology" 100 crossGen
        crossOutcome).posting_history "twitter" = [])
    ∧ (crossState.posting_history "twitter" = [-1000000])
    ∧ (postForOtherPlatform.platform = "facebook")
    ∧ ("facebook" ≠ "twitter") := by
  refine ⟨by decide, by decide, by decide, by decide, rfl, by decide⟩

/-- Evaluating `random.choice` on a three-element list always yields a list element. -/
theorem pick_mem_of_len3 (a b c : String) (i : Nat) :
    pick [a, b, c] i ∈ [a, b, c] := by
  unfold pick
  have h3 : i % 3 < 3 := Nat.mod_lt _ (by decide)
  rcases h : i % 3 with _ | _ | _ | k
  · simp [h]
  · simp [h]
  · simp [h]
  · rw [h] at h3
    omega

/-- C4: when the text-generation call fails (both AI providers raised),
`generate_content` still returns — the exception is caught — and the
returned content is a non-empty string drawn from the static fallback
table entry for the theme. -/
theorem generate_content_fallback (platform theme e : String)
    (hashGen : Except String (List String)) (choice : Nat)
    (h : (fallback_content theme).isSome = true) :
    (generate_content platform theme (Except.error e) hashGen choice).content
      ∈ (fallback_content theme).getD []
    ∧ (generate_content platform theme (Except.error e) hashGen choice).content
      ≠ "" := by
  by_cases h1 : theme = "technology"
  · subst h1
    simp only [generate_content, get_fallback_content, fallbackPool,
      fallback_content, if_pos rfl, Option.getD_some]
    exact ⟨pick_mem_of_len3 _ _ _ choice,
      (by decide : ∀ x ∈ (fallback_content "technology").getD [], x ≠ "") _
        (pick_mem_of_len3 _ _ _ choice)⟩
  · by_cases h2 : theme = "business"
    · subst h2
      simp only [generate_content, get_fallback_content, fallbackPool,
        fallback_content, if_pos rfl, Option.getD_some]
      simp only [if_neg (by decide : ¬("business" = "technology"))]
      exact ⟨pick_mem_of_len3 _ _ _ choice,
        (by decide : ∀ x ∈ (fallback_content "business").getD [], x ≠ "") _
          (pick_mem_of_len3 _ _ _ choice)⟩
    · by_cases h3 : theme = "motivation"
      · subst h3
        simp only [generate_content, get_fallback_content, fallbackPool,
          fallback_content, if_pos rfl, Option.getD_some]
        simp only [if_neg (by decide : ¬("motivation" = "technology")),
          if_neg (by decide : ¬("motivation" = "business"))]
        exact ⟨pick_mem_of_len3 _ _ _ choice,
          (by decide : ∀ x ∈ (fallback_content "motivation").getD [], x ≠ "") _
            (pick_mem_of_len3 _ _ _ choice)⟩
      · by_cases h4 : theme = "lifestyle"
        · subst h4
          simp only [generate_content, get_fallback_content, fallbackPool,
            fallback_content, if_pos rfl, Option.getD_some]
          simp only [if_neg (by decide : ¬("lifestyle" = "technology")),
            if_neg (by decide : ¬("lifestyle" = "business")),
            if_neg (by decide : ¬("lifestyle" = "motivation"))]
          exact ⟨pick_mem_of_len3 _ _ _ choice,
            (by decide : ∀ x ∈ (fallback_content "lifestyle").getD [], x ≠ "") _
              (pick_mem_of_len3 _ _ _ choice)⟩
        · exfalso
          simp [fallback_content, h1, h2, h3, h4] at h

/-- Witness for C4 at theme motivation with every generator call failing. -/
theorem generate_content_fallback_witness :
    (generate_content "twitter" "motivation" (Except.error "AI is down")
        (Except.error "AI is down") 7).content
      ∈ (fallback_content "motivation").getD []
    ∧ (generate_content "twitter" "motivation" (Except.error "AI is down")
        (Except.error "AI is down") 7).content ≠ "" :=
  generate_content_fallback "twitter" "motivation" "AI is down"
    (Except.error "AI is down") 7 (by decide)

/-- Counterexample to C8 as stated: the publish operation the dispatch path
actually uses (`SocialMediaManager.post_to_platform`) calls `post_content`
exactly once and returns the first failure, even when a second attempt
would succeed — the retrying helper (`BasePlatform.post_with_retry`), run
on the same behavior, succeeds on its second attempt.  So the dispatch
path does not retry at the Platform Publisher layer. -/
theorem dispatch_publish_does_not_retry :
    ((post_to_platform managerPlatforms "twitter" flakyAttempts).2 = 1)
    ∧ ((post_to_platform managerPlatforms "twitter" flakyAttempts).1
        = .ok { success := false, platform_post_id := none,
                error := some "network error" })
    ∧ ((post_with_retry flakyCalls 3).1 = .ok "id123")
    ∧ ((post_with_retry flakyCalls 3).2.1 = 2) := by
  refine ⟨by decide, by decide, rfl, by decide⟩

/-- The helper `post_with_retry` makes at most `i + rem` total attempts. -/
theorem postWithRetryAux_attempts_le (f : Nat → Except String String) :
    ∀ (rem i : Nat), (postWithRetryAux f i rem).2.1 ≤ i + rem := by
  intro rem
  induction rem with
  | zero => intro i; simp [postWithRetryAux]
  | succ rem ih =>
    intro i
    unfold postWithRetryAux
    cases f i with
    | ok r => simp
    | error e =>
      by_cases hr : rem = 0
      · simp [hr]
      · simp only [if_neg hr]
        have := ih (i + 1)
        omega

/-- C8 amended: the dispatch path's publish makes exactly one `post_content`
attempt for a supported platform (none for an unsupported one) — no retry
and no backoff; the retry helper `post_with_retry` in the platform base
class caps at 3 attempts with backoff sleeps of `2 ^ attempt` seconds
(1 then 2 when all attempts fail) and surfaces the final error; and the
scheduler never resubmits a failed record, since the query feeding the
dispatch path fetches only records whose status is `scheduled`. -/
theorem publish_one_attempt_and_no_resubmission (p : String)
    (att : Nat → PubOutcome) (f : Nat → Except String String)
    (db : List Post) (now : Int) (lim : Nat) :
    ((post_to_platform managerPlatforms p att).2
      = if p ∈ managerPlatforms then 1 else 0)
    ∧ ((post_with_retry f 3).2.1 ≤ 3)
    ∧ (post_with_retry (fun _ => Except.error "boom") 3
        = (Except.error "boom", 3, [1, 2]))
    ∧ ((get_scheduled_posts db now lim).all
        (fun q => q.status == "scheduled") = true) := by
  refine ⟨?_, ?_, rfl, ?_⟩
  · by_cases hp : p ∈ managerPlatforms <;> simp [post_to_platform, hp]
  · have := postWithRetryAux_attempts_le f 3 0
    simpa [post_with_retry] using this
  · simp only [List.all_eq_true]
    intro q hq
    have hq' : q ∈ db.filter (scheduledDue now) :=
      List.mem_of_mem_take hq
    have := (List.mem_filter.1 hq').2
    unfold scheduledDue at this
    rw [Bool.and_eq_true] at this
    exact this.1

/-- The update `applyStatusUpdate` never changes the row id. -/
theorem applyStatusUpdate_id (p : Post) (s : String)
    (pid err : Option String) (n : Int) :
    (applyStatusUpdate p s pid err n).id = p.id := rfl

/-- The update `applyStatusUpdate` always assigns the requested status. -/
theorem applyStatusUpdate_status (p : Post) (s : String)
    (pid err : Option String) (n : Int) :
    (applyStatusUpdate p s pid err n).status = s := rfl

/-- Mapping a guarded update over rows none of which carry the id is the
identity. -/
theorem map_ite_id_eq_self (i : Nat) (g : Post → Post) :
    ∀ l : List Post, (∀ q ∈ l, q.id ≠ i) →
      l.map (fun p => if p.id = i then g p else p) = l := by
  intro l
  induction l with
  | nil => intro _; rfl
  | cons a l ih =>
    intro h
    have ha : a.id ≠ i := h a (List.mem_cons_self a l)
    simp only [List.map_cons, if_neg ha]
    rw [ih (fun q hq => h q (List.mem_cons_of_mem a hq))]

/-- With pairwise-distinct ids, the first-match table update acts like a
pointwise map. -/
theorem update_post_status_eq_map (i : Nat) (s : String)
    (pid err : Option String) (n : Int) :
    ∀ db : List Post, (db.map (fun p => p.id)).Nodup →
      update_post_status db i s pid err n
        = db.map (fun p => if p.id = i then applyStatusUpdate p s pid err n
            else p) := by
  intro db
  induction db with
  | nil => intro _; rfl
  | cons a l ih =>
    intro h
    rw [List.map_cons, List.nodup_cons] at h
    by_cases ha : a.id = i
    · simp only [update_post_status, if_pos ha, List.map_cons, if_pos ha]
      rw [map_ite_id_eq_self i _ l]
      intro q hq
      intro hqi
      exact h.1 (by
        rw [← ha] at hqi
        exact hqi ▸ List.mem_map_of_mem (fun p => p.id) hq)
    · simp only [update_post_status, if_neg ha, List.map_cons, if_neg ha]
      rw [ih h.2]

/-- With pairwise-distinct ids, two table rows with the same id coincide. -/
theorem eq_of_mem_of_id_eq :
    ∀ db : List Post, (db.map (fun p => p.id)).Nodup →
      ∀ q ∈ db, ∀ r ∈ db, q.id = r.id → q = r := by
  intro db
  induction db with
  | nil => intro _ q hq; exact absurd hq (List.not_mem_nil q)
  | cons a l ih =>
    intro h q hq r hr hid
    rw [List.map_cons, List.nodup_cons] at h
    rcases List.mem_cons.1 hq with rfl | hq'
    · rcases List.mem_cons.1 hr with rfl | hr'
      · rfl
      · exact absurd (hid ▸ List.mem_map_of_mem (fun p => p.id) hr') h.1
    · rcases List.mem_cons.1 hr with rfl | hr'
      · exact absurd (hid ▸ List.mem_map_of_mem (fun p => p.id) hq') h.1
      · exact ih h.2 q hq' r hr' hid

/-- The job step `_execute_post` always rewrites the record's row through
`update_post_status` with status `posted` or `failed`. -/
theorem executePost_db (st : DispatchState) (post : Post)
    (outcome : PubOutcome) (now : Int) :
    ∃ s pid err, (s = "posted" ∨ s = "failed")
      ∧ (executePost st post outcome now).db
        = update_post_status st.db post.id s pid err now := by
  cases outcome with
  | ok r =>
    by_cases hs : r.success
    · exact ⟨"posted", r.platform_post_id, none, Or.inl rfl,
        by simp [executePost, hs]⟩
    · exact ⟨"failed", none, some (r.error.getD "Unknown error"), Or.inr rfl,
        by simp [executePost, hs]⟩
  | exn m => exact ⟨"failed", none, some m, Or.inr rfl, rfl⟩

/-- Counterexample to C9 as stated: a dispatch-job invocation that the rate
limiter rejects (three window timestamps against a cap of 2) terminates
with the posts table still empty — the attempt produces no `posted` or
`failed` record at all. -/
theorem dispatch_rate_limited_leaves_no_record :
    ((dispatchJob 2 rateLimitedState "twitter" "technology" 100 c9Gen
        c9Outcome).db = [])
    ∧ rateLimitedState.db = []
    ∧ (dispatchJob 2 rateLimitedState "twitter" "technology" 100 c9Gen
        c9Outcome).nextId = rateLimitedState.nextId := by
  refine ⟨by decide, rfl, by decide⟩

/-- C9 amended: every dispatch-job invocation that passes the rate-limit
gate results in exactly one new-or-updated record whose final status is
`posted` or `failed` (every row the invocation adds or rewrites ends in one
of those two statuses, and no gate-passing attempt goes without a record);
rate-limited invocations are skipped without a record. -/
theorem dispatch_after_gate_results_posted_or_failed
    (maxPosts : Nat) (st : DispatchState) (platform theme : String)
    (now : Int) (gen : GenData) (outcome : PubOutcome)
    (hgate : (prune now (st.posting_history platform)).length < maxPosts)
    (hnodup : (st.db.map (fun p => p.id)).Nodup)
    (hbound : ∀ q ∈ st.db, q.id < st.nextId) :
    (∃ q ∈ (dispatchJob maxPosts st platform theme now gen outcome).db,
        q ∉ st.db ∧ (q.status = "posted" ∨ q.status = "failed"))
    ∧ (∀ q ∈ (dispatchJob maxPosts st platform theme now gen outcome).db,
        q ∉ st.db → (q.status = "posted" ∨ q.status = "failed"))
    ∧ ((dispatchJob maxPosts st platform theme now gen outcome).db.length
          = st.db.length
      ∨ (dispatchJob maxPosts st platform theme now gen outcome).db.length
          = st.db.length + 1) := by
  rcases hh : (get_scheduled_posts st.db now 1).head? with _ | post
  · -- no due scheduled record: a fresh record is created and executed
    have hjob : (dispatchJob maxPosts st platform theme now gen outcome).db
        = (executePost
            { st with
                posting_history := Function.update st.posting_history
                  platform (prune now (st.posting_history platform))
                db := st.db ++ [create_post st.nextId gen.content gen.platform
                  (some gen.theme) gen.hashtags (some now)]
                nextId := st.nextId + 1 }
            (create_post st.nextId gen.content gen.platform (some gen.theme)
              gen.hashtags (some now)) outcome now).db := by
      simp [dispatchJob, shouldPostHist, hgate, hh]
    obtain ⟨s, pid, err, hsOr, hdb⟩ := executePost_db _ _ outcome now
    rw [hdb] at hjob
    have hnd2 : (((st.db ++ [create_post st.nextId gen.content gen.platform
        (some gen.theme) gen.hashtags (some now)]).map (fun p => p.id))).Nodup := by
      rw [List.map_append, List.nodup_append]
      refine ⟨hnodup, by simp, ?_⟩
      intro x hx
      simp only [List.map_cons, List.map_nil, List.mem_singleton]
      obtain ⟨q, hq, rfl⟩ := List.mem_map.1 hx
      have := hbound q hq
      simp [create_post]
      omega
    rw [update_post_status_eq_map] at hjob
    · simp only [List.map_append] at hjob
      rw [map_ite_id_eq_self] at hjob
      · simp only [List.map_cons, List.map_nil, eq_self_iff_true,
          if_true] at hjob
        refine ⟨?_, ?_, ?_⟩
        · refine ⟨applyStatusUpdate (create_post st.nextId gen.content
            gen.platform (some gen.theme) gen.hashtags (some now)) s pid err
              now, ?_, ?_, ?_⟩
          · rw [hjob]
            simp [create_post]
          · intro hmem
            have := hbound _ hmem
            rw [applyStatusUpdate_id] at this
            simp [create_post] at this
          · rw [applyStatusUpdate_status]
            exact hsOr
        · intro q hq hqnot
          rw [hjob] at hq
          rcases List.mem_append.1 hq with hq' | hq'
          · exact absurd hq' hqnot
          · have : q = applyStatusUpdate (create_post st.nextId gen.content
                gen.platform (some gen.theme) gen.hashtags (some now)) s pid
                  err now := by
              simpa [create_post] using hq'
            rw [this, applyStatusUpdate_status]
            exact hsOr
        · right
          rw [hjob]
          simp [create_post]
      · intro q hq hqi
        have := hbound q hq
        simp only [create_post] at hqi
        omega
    · exact hnd2
  · -- a due scheduled record is fetched and executed
    have hpost_mem : post ∈ st.db := by
      have h1 : post ∈ get_scheduled_posts st.db now 1 :=
        List.mem_of_mem_head? (by simp [hh])
      exact List.mem_of_mem_filter (List.mem_of_mem_take h1)
    have hpost_pred : scheduledDue now post = true := by
      have h1 : post ∈ get_scheduled_posts st.db now 1 :=
        List.mem_of_mem_head? (by simp [hh])
      exact List.of_mem_filter (List.mem_of_mem_take h1)
    have hpost_status : post.status = "scheduled" := by
      unfold scheduledDue at hpost_pred
      rw [Bool.and_eq_true] at hpost_pred
      simpa using hpost_pred.1
    have hjob : (dispatchJob maxPosts st platform theme now gen outcome).db
        = (executePost
            { st with
                posting_history := Function.update st.posting_history
                  platform (prune now (st.posting_history platform)) }
            post outcome now).db := by
      simp [dispatchJob, shouldPostHist, hgate, hh]
    obtain ⟨s, pid, err, hsOr, hdb⟩ := executePost_db _ _ outcome now
    rw [hdb] at hjob
    rw [update_post_status_eq_map _ _ _ _ _ _ hnodup] at hjob
    have hne : s ≠ "scheduled" := by
      rcases hsOr with rfl | rfl <;> decide
    refine ⟨?_, ?_, ?_⟩
    · refine ⟨applyStatusUpdate post s pid err now, ?_, ?_, ?_⟩
      · rw [hjob]
        exact List.mem_map.2 ⟨post, hpost_mem, by simp⟩
      · intro hmem
        have heq : applyStatusUpdate post s pid err now = post :=
          eq_of_mem_of_id_eq st.db hnodup _ hmem post hpost_mem
            (applyStatusUpdate_id post s pid err now)
        have : s = "scheduled" := by
          rw [← applyStatusUpdate_status post s pid err now, heq, hpost_status]
        exact hne this
      · rw [applyStatusUpdate_status]
        exact hsOr
    · intro q hq hqnot
      rw [hjob] at hq
      obtain ⟨p', hp', hfp⟩ := List.mem_map.1 hq
      by_cases hpi : p'.id = post.id
      · have : p' = post := eq_of_mem_of_id_eq st.db hnodup p' hp' post
          hpost_mem hpi
        subst this
        rw [if_pos hpi] at hfp
        rw [← hfp, applyStatusUpdate_status]
        exact hsOr
      · rw [if_neg hpi] at hfp
        exact absurd (hfp ▸ hp') hqnot
    · left
      rw [hjob]
      simp

/-- Witness for the amended C9 on a concrete gate-passing invocation with an
empty table. -/
theorem dispatch_after_gate_results_posted_or_failed_witness :
    (∃ q ∈ (dispatchJob 2 initState "twitter" "technology" 100 c9Gen
        c9Outcome).db,
        q ∉ initState.db ∧ (q.status = "posted" ∨ q.status = "failed"))
    ∧ (∀ q ∈ (dispatchJob 2 initState "twitter" "technology" 100 c9Gen
        c9Outcome).db,
        q ∉ initState.db → (q.status = "posted" ∨ q.status = "failed"))
    ∧ ((dispatchJob 2 initState "twitter" "technology" 100 c9Gen
          c9Outcome).db.length = initState.db.length
      ∨ (dispatchJob 2 initState "twitter" "technology" 100 c9Gen
          c9Outcome).db.length = initState.db.length + 1) :=
  dispatch_after_gate_results_posted_or_failed 2 initState "twitter"
    "technology" 100 c9Gen c9Outcome (by decide) (by decide)
    (by intro q hq; exact absurd hq (List.not_mem_nil q))

theorem statusInvB_apply_posted (p : Post) (pid : Option String) (n : Int)
    (herrnone : p.error_message = none)
    (hpid : pyTruthy pid = true) :
    statusInvB (applyStatusUpdate p "posted" pid none n) = true := by
  have hpidsome : pid.isSome = true := by
    cases hq : pid with
    | none => rw [hq] at hpid; exact absurd hpid (by decide)
    | some s => rfl
  have hfn : pyTruthy (none : Option String) = false := rfl
  unfold statusInvB applyStatusUpdate
  simp only [hpid, hfn, if_true, if_false, Bool.false_eq_true, if_pos rfl]
  simp [hpidsome, herrnone]

theorem statusInvB_apply_failed (p : Post) (e : String) (n : Int)
    (hpt : (p.posted_time.isSome && p.platform_post_id.isSome) = false)
    (he : e ≠ "") :
    statusInvB (applyStatusUpdate p "failed" none (some e) n) = true := by
  have hpe : pyTruthy (some e) = true := by
    simp [pyTruthy, he]
  have hfn : pyTruthy (none : Option String) = false := rfl
  unfold statusInvB applyStatusUpdate
  simp only [hpe, hfn, if_true, if_false, Bool.false_eq_true,
    if_neg (by decide : ¬("failed" = "posted"))]
  simp [hpt]

theorem statusInvB_exec (p : Post) (outcome : PubOutcome) (n : Int)
    (hp : statusInvB p = true)
    (hstat : p.status = "scheduled" ∨ p.status = "draft")
    (hwf : outcomeWF outcome) :
    statusInvB (applyStatusUpdate p (execStatus outcome) (execPid outcome)
      (execErr outcome) n) = true := by
  have hnp : (p.status == "posted") = false := by
    rcases hstat with h | h <;> simp [h]
  have hnf : (p.status == "failed") = false := by
    rcases hstat with h | h <;> simp [h]
  unfold statusInvB at hp
  rw [Bool.and_eq_true, beq_iff_eq, beq_iff_eq, hnp, hnf] at hp
  obtain ⟨hpt, herr⟩ := hp
  have herrnone : p.error_message = none := by
    cases he : p.error_message with
    | none => rfl
    | some s => rw [he] at herr; simp at herr
  cases outcome with
  | ok r =>
    by_cases hs : r.success
    · have hpid : pyTruthy r.platform_post_id = true := (hwf.1) hs
      have h1 : execStatus (PubOutcome.ok r) = "posted" := by
        simp [execStatus, hs]
      have h2 : execPid (PubOutcome.ok r) = r.platform_post_id := by
        simp [execPid, hs]
      have h3 : execErr (PubOutcome.ok r) = none := by
        simp [execErr, hs]
      rw [h1, h2, h3]
      exact statusInvB_apply_posted p r.platform_post_id n herrnone hpid
    · have hs' : r.success = false := by
        cases hq : r.success
        · rfl
        · exact absurd hq hs
      have herr2 : r.error.getD "Unknown error" ≠ "" := (hwf.2) hs'
      have h1 : execStatus (PubOutcome.ok r) = "failed" := by
        simp [execStatus, hs']
      have h2 : execPid (PubOutcome.ok r) = none := by
        simp [execPid, hs']
      have h3 : execErr (PubOutcome.ok r) = some (r.error.getD "Unknown error") := by
        simp [execErr, hs']
      rw [h1, h2, h3]
      exact statusInvB_apply_failed p _ n hpt.symm herr2
  | exn m =>
    exact statusInvB_apply_failed p m n hpt.symm hwf

theorem executePost_db_eq (st : DispatchState) (post : Post)
    (outcome : PubOutcome) (now : Int) :
    (executePost st post outcome now).db
      = update_post_status st.db post.id (execStatus outcome)
          (execPid outcome) (execErr outcome) now := by
  cases outcome with
  | ok r =>
    by_cases hs : r.success <;>
      simp [executePost, execStatus, execPid, execErr, hs]
  | exn m => rfl

theorem ids_map_ite (i : Nat) (s : String) (pid err : Option String) (n : Int) :
    ∀ l : List Post,
      ((l.map (fun p => if p.id = i then applyStatusUpdate p s pid err n
        else p)).map (fun p => p.id)) = l.map (fun p => p.id) := by
  intro l
  induction l with
  | nil => rfl
  | cons a l ih =>
    by_cases ha : a.id = i <;> simp [ha, ih, applyStatusUpdate_id]

theorem nodup_ids_append_fresh (db : List Post) (q : Post)
    (hnodup : (db.map (fun p => p.id)).Nodup)
    (hbound : ∀ r ∈ db, r.id < q.id) :
    ((db ++ [q]).map (fun p => p.id)).Nodup := by
  rw [List.map_append, List.nodup_append]
  refine ⟨hnodup, by simp, ?_⟩
  intro x hx
  simp only [List.map_cons, List.map_nil, List.mem_singleton]
  obtain ⟨r, hr, rfl⟩ := List.mem_map.1 hx
  have := hbound r hr
  omega

theorem executePost_nextId (st : DispatchState) (post : Post)
    (outcome : PubOutcome) (now : Int) :
    (executePost st post outcome now).nextId = st.nextId := by
  cases outcome with
  | ok r => by_cases hs : r.success <;> simp [executePost, hs]
  | exn m => rfl

theorem applyOp_preserves (m : Nat) (st : DispatchState) (op : CoreOp)
    (hinv : stateInv st) (hop : opWF op) : stateInv (applyOp m st op) := by
  obtain ⟨hnodup, hbound, hall⟩ := hinv
  cases op with
  | create c p th hs t =>
    refine ⟨?_, ?_, ?_⟩
    · exact nodup_ids_append_fresh st.db _ hnodup (fun r hr => hbound r hr)
    · intro q hq
      rcases List.mem_append.1 hq with hq' | hq'
      · have := hbound q hq'
        simp only [applyOp]
        omega
      · have : q = create_post st.nextId c p th hs t := by simpa using hq'
        rw [this]
        simp [applyOp, create_post]
    · intro q hq
      rcases List.mem_append.1 hq with hq' | hq'
      · exact hall q hq'
      · have : q = create_post st.nextId c p th hs t := by simpa using hq'
        rw [this]
        rfl
  | batchSchedule c p th hs t =>
    have hnd2 := nodup_ids_append_fresh st.db
      (create_post st.nextId c p (some th) hs (some t)) hnodup
      (fun r hr => hbound r hr)
    have hdb : (applyOp m st (CoreOp.batchSchedule c p th hs t)).db
        = st.db ++ [applyStatusUpdate
            (create_post st.nextId c p (some th) hs (some t))
            "scheduled" none none t] := by
      simp only [applyOp]
      rw [update_post_status_eq_map _ _ _ _ _ _ hnd2]
      rw [List.map_append]
      rw [map_ite_id_eq_self]
      · simp [create_post]
      · intro q hq hqi
        have h2 := hbound q hq
        have h3 : q.id = st.nextId := hqi
        omega
    refine ⟨?_, ?_, ?_⟩
    · rw [hdb]
      exact nodup_ids_append_fresh st.db _ hnodup (fun r hr => hbound r hr)
    · intro q hq
      rw [hdb] at hq
      rcases List.mem_append.1 hq with hq' | hq'
      · have := hbound q hq'
        simp only [applyOp]
        omega
      · have : q = applyStatusUpdate
            (create_post st.nextId c p (some th) hs (some t))
            "scheduled" none none t := by simpa using hq'
        rw [this]
        simp [applyOp, applyStatusUpdate, create_post]
    · intro q hq
      rw [hdb] at hq
      rcases List.mem_append.1 hq with hq' | hq'
      · exact hall q hq'
      · have : q = applyStatusUpdate
            (create_post st.nextId c p (some th) hs (some t))
            "scheduled" none none t := by simpa using hq'
        rw [this]
        rfl
  | update i s pid err n => exact absurd hop (by simp [opWF])
  | dispatch p th now gen outcome =>
    by_cases hg : (prune now (st.posting_history p)).length < m
    · rcases hh : (get_scheduled_posts st.db now 1).head? with _ | post
      · -- fresh record created and executed
        have hdb : (applyOp m st (CoreOp.dispatch p th now gen outcome)).db
            = st.db ++ [applyStatusUpdate
                (create_post st.nextId gen.content gen.platform
                  (some gen.theme) gen.hashtags (some now))
                (execStatus outcome) (execPid outcome) (execErr outcome)
                now] := by
          simp only [applyOp]
          have h1 : (dispatchJob m st p th now gen outcome).db
              = (executePost
                  { st with
                      posting_history := Function.update st.posting_history
                        p (prune now (st.posting_history p))
                      db := st.db ++ [create_post st.nextId gen.content
                        gen.platform (some gen.theme) gen.hashtags (some now)]
                      nextId := st.nextId + 1 }
                  (create_post st.nextId gen.content gen.platform
                    (some gen.theme) gen.hashtags (some now)) outcome now).db := by
            simp [dispatchJob, shouldPostHist, hg, hh]
          rw [h1, executePost_db_eq]
          have hnd2 := nodup_ids_append_fresh st.db
            (create_post st.nextId gen.content gen.platform (some gen.theme)
              gen.hashtags (some now)) hnodup (fun r hr => hbound r hr)
          rw [update_post_status_eq_map _ _ _ _ _ _ hnd2]
          rw [List.map_append]
          rw [map_ite_id_eq_self]
          · simp [create_post]
          · intro q hq hqi
            have := hbound q hq
            simp only [create_post] at hqi
            omega
        have hnext : (applyOp m st (CoreOp.dispatch p th now gen outcome)).nextId
            = st.nextId + 1 := by
          simp only [applyOp]
          have h1 : (dispatchJob m st p th now gen outcome)
              = executePost
                  { st with
                      posting_history := Function.update st.posting_history
                        p (prune now (st.posting_history p))
                      db := st.db ++ [create_post st.nextId gen.content
                        gen.platform (some gen.theme) gen.hashtags (some now)]
                      nextId := st.nextId + 1 }
                  (create_post st.nextId gen.content gen.platform
                    (some gen.theme) gen.hashtags (some now)) outcome now := by
            simp [dispatchJob, shouldPostHist, hg, hh]
          rw [h1, executePost_nextId]
        refine ⟨?_, ?_, ?_⟩
        · rw [hdb]
          exact nodup_ids_append_fresh st.db _ hnodup (fun r hr => hbound r hr)
        · intro q hq
          rw [hdb] at hq
          rw [hnext]
          rcases List.mem_append.1 hq with hq' | hq'
          · have := hbound q hq'
            omega
          · have : q = applyStatusUpdate
                (create_post st.nextId gen.content gen.platform
                  (some gen.theme) gen.hashtags (some now))
                (execStatus outcome) (execPid outcome) (execErr outcome)
                now := by simpa using hq'
            rw [this, applyStatusUpdate_id]
            simp [create_post]
        · intro q hq
          rw [hdb] at hq
          rcases List.mem_append.1 hq with hq' | hq'
          · exact hall q hq'
          · have : q = applyStatusUpdate
                (create_post st.nextId gen.content gen.platform
                  (some gen.theme) gen.hashtags (some now))
                (execStatus outcome) (execPid outcome) (execErr outcome)
                now := by simpa using hq'
            rw [this]
            exact statusInvB_exec _ outcome now rfl (Or.inr rfl) hop
      · -- existing scheduled record fetched and executed
        have hpost_mem : post ∈ st.db := by
          have h1 : post ∈ get_scheduled_posts st.db now 1 :=
            List.mem_of_mem_head? (by simp [hh])
          exact List.mem_of_mem_filter (List.mem_of_mem_take h1)
        have hpost_status : post.status = "scheduled" := by
          have h1 : post ∈ get_scheduled_posts st.db now 1 :=
            List.mem_of_mem_head? (by simp [hh])
          have := List.of_mem_filter (List.mem_of_mem_take h1)
          unfold scheduledDue at this
          rw [Bool.and_eq_true] at this
          simpa using this.1
        have hdb : (applyOp m st (CoreOp.dispatch p th now gen outcome)).db
            = st.db.map (fun q => if q.id = post.id then
                applyStatusUpdate q (execStatus outcome) (execPid outcome)
                  (execErr outcome) now else q) := by
          simp only [applyOp]
          have h1 : (dispatchJob m st p th now gen outcome).db
              = (executePost
                  { st with
                      posting_history := Function.update st.posting_history
                        p (prune now (st.posting_history p)) }
                  post outcome now).db := by
            simp [dispatchJob, shouldPostHist, hg, hh]
          rw [h1, executePost_db_eq]
          exact update_post_status_eq_map _ _ _ _ _ _ hnodup
        have hnext : (applyOp m st (CoreOp.dispatch p th now gen outcome)).nextId
            = st.nextId := by
          simp only [applyOp]
          have h1 : (dispatchJob m st p th now gen outcome)
              = executePost
                  { st with
                      posting_history := Function.update st.posting_history
                        p (prune now (st.posting_history p)) }
                  post outcome now := by
            simp [dispatchJob, shouldPostHist, hg, hh]
          rw [h1, executePost_nextId]
        refine ⟨?_, ?_, ?_⟩
        · rw [hdb, ids_map_ite]
          exact hnodup
        · intro q hq
          rw [hdb] at hq
          rw [hnext]
          obtain ⟨q', hq', hfq⟩ := List.mem_map.1 hq
          by_cases hqi : q'.id = post.id
          · rw [if_pos hqi] at hfq
            rw [← hfq, applyStatusUpdate_id, hqi]
            exact hqi ▸ hbound q' hq'
          · rw [if_neg hqi] at hfq
            rw [← hfq]
            exact hbound q' hq'
        · intro q hq
          rw [hdb] at hq
          obtain ⟨q', hq', hfq⟩ := List.mem_map.1 hq
          by_cases hqi : q'.id = post.id
          · have : q' = post := eq_of_mem_of_id_eq st.db hnodup q' hq'
              post hpost_mem hqi
            subst this
            rw [if_pos hqi] at hfq
            rw [← hfq]
            exact statusInvB_exec q' outcome now (hall q' hq')
              (Or.inl hpost_status) hop
          · rw [if_neg hqi] at hfq
            rw [← hfq]
            exact hall q' hq'
    · -- rate-limited: table and counter untouched
      have hdb : (applyOp m st (CoreOp.dispatch p th now gen outcome)).db
          = st.db := by
        simp [applyOp, dispatchJob, shouldPostHist, hg]
      have hnext : (applyOp m st (CoreOp.dispatch p th now gen outcome)).nextId
          = st.nextId := by
        simp [applyOp, dispatchJob, shouldPostHist, hg]
      rw [stateInv, hdb, hnext]
      exact ⟨hnodup, hbound, hall⟩

theorem runOps_preserves_inv (m : Nat) :
    ∀ (ops : List CoreOp) (st : DispatchState), stateInv st →
      (∀ op ∈ ops, opWF op) → stateInv (runOps m st ops) := by
  intro ops
  induction ops with
  | nil => intro st h _; exact h
  | cons op ops ih =>
    intro st h hwf
    exact ih (applyOp m st op)
      (applyOp_preserves m st op h (hwf op (List.mem_cons_self op ops)))
      (fun o ho => hwf o (List.mem_cons_of_mem op ho))

/-- Counterexample to C3 as stated: a record reached by creation followed by
a status update to `posted` without a platform post id has `posted_time`
set but `platform_post_id` unset, violating the biconditional invariant
(`update_post_status` also never clears stale fields). -/
theorem statusInv_broken_by_plain_update :
    (runOps 6 initState badOps).db
      = [{ id := 1, content := "hello", platform := "twitter", theme := none,
           hashtags := [], scheduled_time := none, posted_time := some 100,
           status := "posted", platform_post_id := none,
           error_message := none }]
    ∧ statusInvB
        { id := 1, content := "hello", platform := "twitter", theme := none,
          hashtags := [], scheduled_time := none, posted_time := some 100,
          status := "posted", platform_post_id := none,
          error_message := none } = false := by
  refine ⟨by decide, by decide⟩

/-- C3 amended: every record reachable from the empty store by creation,
batch scheduling, and dispatch executions whose publish outcomes carry a
truthy platform post id on success and a non-empty error string on failure
satisfies the status invariant — the unrestricted `update_post_status`
operation of the counterexample is what breaks it. -/
theorem statusInv_reachable_by_dispatch (m : Nat) (ops : List CoreOp)
    (hwf : ∀ op ∈ ops, opWF op) :
    ∀ q ∈ (runOps m initState ops).db, statusInvB q = true := by
  have h := runOps_preserves_inv m ops initState
    ⟨by simp [initState], ?_, ?_⟩ hwf
  · exact h.2.2
  · intro q hq
    exact absurd hq (List.not_mem_nil q)
  · intro q hq
    exact absurd hq (List.not_mem_nil q)

/-- Witness for the amended C3 on the record produced by one successful
dispatch execution. -/
theorem statusInv_reachable_by_dispatch_witness :
    statusInvB
      { id := 1, content := "hello", platform := "twitter",
        theme := some "technology", hashtags := [],
        scheduled_time := some 100, posted_time := some 100,
        status := "posted", platform_post_id := some "tw_1",
        error_message := none } = true :=
  statusInv_reachable_by_dispatch 6 goodOps
    (by
      intro op hop
      simp only [goodOps, List.mem_singleton] at hop
      subst hop
      exact ⟨fun _ => by decide, fun h => absurd h (by decide)⟩)
    _ (by decide)

/-- C2: the rate-limit invariant fails in the code, which here contradicts
the spec's stated intent.  With `max_posts_per_day = 2`, three dispatch-job
invocations gated on twitter at times 10, 20 and 30 each pass twitter's
(empty) rate-limit check, fetch one of the due facebook scheduled records —
`get_scheduled_posts` has no platform filter — transition it to `posted`,
and record the posting-history entry for the record's own platform
(scheduler.py line 204): facebook accumulates three `posted` transitions
inside one trailing 24-hour window, exceeding the cap of 2, while twitter's
history stays empty. -/
theorem rate_limit_violated_by_cross_platform_fetch :
    (c2EndState.posting_history "facebook" = [10, 20, 30])
    ∧ (c2EndState.posting_history "twitter" = [])
    ∧ (((c2EndState.posting_history "facebook").filter (winB 30)).length = 3)
    ∧ (¬ ((c2EndState.posting_history "facebook").filter
        (winB 30)).length ≤ 2)
    ∧ (c2EndState.db.all (fun q => q.status == "posted") = true)
    ∧ (c2EndState.db.length = 3) := by
  refine ⟨by decide, by decide, by decide, by decide, by decide, by decide⟩
